import Mathlib

/-!
Shallow embedding of the `capital_reallocator` Solana program
(`programs/capital_reallocator/src`): position lifecycle, deposit/withdraw
accounting, price normalization, range classification and the rebalance
state machine.  Machine integers (`u64`, `u128`, `u16`, `u8`) are modelled
as `Nat` with explicit bounds / wrapping where the source's checked or
casting arithmetic makes them observable.  Fallible instruction handlers
become `Except`-valued functions.  External CPIs (SPL token transfers,
Meteora / Kamino calls) are side effects outside the ledger; only their
ledger effect on the `Position` account, as written in the source, is kept.
-/

namespace CapitalReallocator

/-- `u64::MAX`. -/
def U64_MAX : Nat := 2 ^ 64 - 1

/-- Modulus for `as u64` truncating casts. -/
def U64_MOD : Nat := 2 ^ 64

/-- `u128::MAX`. -/
def U128_MAX : Nat := 2 ^ 128 - 1

/-- Rust `u64::checked_add`. -/
def checkedAdd (a b : Nat) : Option Nat :=
  if a + b ≤ U64_MAX then some (a + b) else none

/-- Rust `u64::checked_sub`. -/
def checkedSub (a b : Nat) : Option Nat :=
  if b ≤ a then some (a - b) else none

/-- Rust `u64::checked_mul`. -/
def checkedMulU64 (a b : Nat) : Option Nat :=
  if a * b ≤ U64_MAX then some (a * b) else none

/-- Rust `u64::checked_div` (fails only on division by zero). -/
def checkedDivU64 (a b : Nat) : Option Nat :=
  if b = 0 then none else some (a / b)

/-- Rust `u128::checked_mul`. -/
def checkedMulU128 (a b : Nat) : Option Nat :=
  if a * b ≤ U128_MAX then some (a * b) else none

/-- Rust `u128::checked_div` (fails only on division by zero). -/
def checkedDivU128 (a b : Nat) : Option Nat :=
  if b = 0 then none else some (a / b)

/-- Rust `u64::saturating_sub`; `Nat` subtraction is already saturating. -/
def saturatingSub (a b : Nat) : Nat := a - b

/-- Rust `u64::saturating_add`. -/
def saturatingAddU64 (a b : Nat) : Nat := min (a + b) U64_MAX

/-- Rust `as u64` truncating cast from a wider value. -/
def castU64 (x : Nat) : Nat := x % U64_MOD

/-- Rust `10u64.pow k` in a release build: wraps on overflow. -/
def pow10U64 (k : Nat) : Nat := (10 ^ k) % U64_MOD

/-- Rust `conf as i64` where `conf : u64`: reinterpret the bit pattern. -/
def confAsI64 (c : Nat) : Int :=
  if c < 2 ^ 63 then (c : Int) else (c : Int) - 2 ^ 64

/-- The program's error enum, from `errors.rs` (variants the embedded
instructions can actually return). -/
inductive ErrorCode where
  | InvalidPriceRange
  | InvalidPositionId
  | PositionPaused
  | InsufficientBalance
  | InvalidPercentage
  | PositionNotEmpty
  | StalePriceData
  | MathOverflow
  | ExternalProtocolError
  | LPPositionNotFound
  | LendingPositionNotFound
  deriving Repr, DecidableEq

/-- Errors a `rebalance_position` call can surface: either one of the
program's own `ErrorCode`s or the Pyth SDK's failure to produce a price
no older than the staleness bound. -/
inductive RebalanceErr where
  | program (e : ErrorCode)
  | pythStale
  deriving Repr, DecidableEq

/-- Rust `Option::ok_or` followed by `?`, as used throughout the source. -/
def okOr {α : Type} (o : Option α) (e : ErrorCode) : Except ErrorCode α :=
  match o with
  | some a => Except.ok a
  | none => Except.error e

/-- Account keys: opaque identities, modelled as `Nat`. -/
abbrev Pubkey := Nat

/-- `ProtocolAuthority` account, as initialized in
`InitializeProtocol::init_protocol` (program id and bump are identity
plumbing and omitted). -/
structure ProtocolAuthority where
  fee_recipient : Pubkey
  protocol_fee_bps : Nat       -- u16
  total_positions : Nat        -- u64
  deriving Repr, DecidableEq

/-- `UserMainAccount`, as initialized in `InitializeUser::init_user`. -/
structure UserMainAccount where
  owner : Pubkey
  position_count : Nat           -- u64
  total_positions_created : Nat  -- u64
  deriving Repr, DecidableEq

/-- The `Position` account.  Field list reconstructed from the
`set_inner` initializer in `CreatePosition::init_position` (the struct
declaration itself sits outside the instruction files); the external
protocol handles are kept as `Option Unit` since only presence matters
to the embedded logic.  The PDA bump is identity plumbing and omitted. -/
structure Position where
  owner : Pubkey
  position_id : Nat              -- u64
  token_a_mint : Pubkey
  token_b_mint : Pubkey
  token_a_vault_balance : Nat    -- u64
  token_b_vault_balance : Nat    -- u64
  token_a_in_lp : Nat            -- u64
  token_b_in_lp : Nat            -- u64
  token_a_in_lending : Nat       -- u64
  token_b_in_lending : Nat       -- u64
  lp_range_min : Nat             -- u64
  lp_range_max : Nat             -- u64
  pause_flag : Bool
  created_at : Int               -- i64 unix timestamp
  last_rebalance_price : Nat     -- u64
  last_rebalance_slot : Nat      -- u64
  total_rebalances : Nat         -- u64
  meteora_position : Option Unit
  kamino_obligation : Option Unit
  deriving Repr, DecidableEq

/-- `RebalanceAction` from `events/mod.rs`. -/
inductive RebalanceAction where
  | NoAction
  | MoveToLP
  | MoveToLending
  deriving Repr, DecidableEq

/-- `RebalanceEvent` from `events/mod.rs`. -/
structure RebalanceEvent where
  position_id : Nat
  owner : Pubkey
  current_price : Nat
  in_range : Bool
  action : RebalanceAction
  deriving Repr, DecidableEq

/-- `normalize_pyth_price` from `instructions/rebalance.rs`.  The
`(-exponent) as u8` cast truncates the `i32` to its low 8 bits. -/
def normalize_pyth_price (price : Int) (exponent : Int) (target_decimals : Nat) :
    Except ErrorCode Nat :=
  if price ≤ 0 then Except.error ErrorCode.StalePriceData
  else
    let pyth_decimals : Nat := ((-exponent).emod 256).toNat
    if pyth_decimals > target_decimals then
      let divisor := pow10U64 (pyth_decimals - target_decimals)
      Except.ok (price.toNat / divisor)
    else if pyth_decimals < target_decimals then
      let multiplier := pow10U64 (target_decimals - pyth_decimals)
      match checkedMulU64 price.toNat multiplier with
      | some v => Except.ok v
      | none => Except.error ErrorCode.MathOverflow
    else
      Except.ok price.toNat

/-- The protocol-fee computation shared verbatim by
`DepositToPosition::deposit` and `WithdrawFromPosition::withdraw`:
widen to `u128`, checked multiply by the bps rate, checked divide by
10000, truncate back to `u64`. -/
def compute_fee (amount fee_bps : Nat) : Except ErrorCode Nat :=
  match checkedMulU128 amount fee_bps with
  | none => Except.error ErrorCode.MathOverflow
  | some w =>
    match checkedDivU128 w 10000 with
    | none => Except.error ErrorCode.MathOverflow
    | some w2 => Except.ok (castU64 w2)

/-- `InitializeUser::init_user`: the account is declared `init_if_needed`,
so the handler runs even when the user account already exists and
unconditionally `set_inner`s fresh zeroed state.  `prior` is the possibly
pre-existing account content; the source never reads it. -/
def init_user (owner : Pubkey) (_prior : Option UserMainAccount) : UserMainAccount :=
  { owner := owner, position_count := 0, total_positions_created := 0 }

/-- `CreatePosition::init_position`.  `now` is `Clock::get()?.unix_timestamp`.
The three counter increments are plain (release-wrapping) `u64` `+= 1`. -/
def init_position (user : UserMainAccount) (prot : ProtocolAuthority)
    (owner token_a_mint token_b_mint : Pubkey)
    (position_id lp_range_min lp_range_max : Nat) (now : Int) :
    Except ErrorCode (Position × UserMainAccount × ProtocolAuthority) :=
  if ¬ lp_range_min < lp_range_max then Except.error ErrorCode.InvalidPriceRange
  else if ¬ position_id = castU64 (user.total_positions_created + 1) then
    Except.error ErrorCode.InvalidPositionId
  else
    let p : Position :=
      { owner := owner
        position_id := position_id
        token_a_mint := token_a_mint
        token_b_mint := token_b_mint
        token_a_vault_balance := 0
        token_b_vault_balance := 0
        token_a_in_lp := 0
        token_b_in_lp := 0
        token_a_in_lending := 0
        token_b_in_lending := 0
        lp_range_min := lp_range_min
        lp_range_max := lp_range_max
        pause_flag := false
        created_at := now
        last_rebalance_price := 0
        last_rebalance_slot := 0
        total_rebalances := 0
        meteora_position := none
        kamino_obligation := none }
    Except.ok
      (p,
       { user with
          position_count := castU64 (user.position_count + 1)
          total_positions_created := castU64 (user.total_positions_created + 1) },
       { prot with total_positions := castU64 (prot.total_positions + 1) })

/-- `ModifyPosition::pause`: sets only the pause flag. -/
def pause (p : Position) : Position := { p with pause_flag := true }

/-- `ModifyPosition::resume`: clears only the pause flag. -/
def resume (p : Position) : Position := { p with pause_flag := false }

/-- `DepositToPosition::deposit`: fee computation, checked net subtraction,
then (per nonzero amount) a checked credit of the net amount to the idle
vault balance.  The two SPL transfers per token are external side effects;
the returned quadruple `(deposit_a, deposit_b, fee_a, fee_b)` is the
`DepositEvent` payload. -/
def deposit (prot : ProtocolAuthority) (p : Position) (amount_a amount_b : Nat) :
    Except ErrorCode (Position × Nat × Nat × Nat × Nat) :=
  match compute_fee amount_a prot.protocol_fee_bps with
  | Except.error e => Except.error e
  | Except.ok fee_a =>
  match compute_fee amount_b prot.protocol_fee_bps with
  | Except.error e => Except.error e
  | Except.ok fee_b =>
  match checkedSub amount_a fee_a with
  | none => Except.error ErrorCode.MathOverflow
  | some deposit_a =>
  match checkedSub amount_b fee_b with
  | none => Except.error ErrorCode.MathOverflow
  | some deposit_b =>
  let stepA : Except ErrorCode Position :=
    if amount_a > 0 then
      match checkedAdd p.token_a_vault_balance deposit_a with
      | none => Except.error ErrorCode.MathOverflow
      | some v => Except.ok { p with token_a_vault_balance := v }
    else Except.ok p
  match stepA with
  | Except.error e => Except.error e
  | Except.ok p1 =>
    if amount_b > 0 then
      match checkedAdd p1.token_b_vault_balance deposit_b with
      | none => Except.error ErrorCode.MathOverflow
      | some v =>
        Except.ok ({ p1 with token_b_vault_balance := v }, deposit_a, deposit_b, fee_a, fee_b)
    else Except.ok (p1, deposit_a, deposit_b, fee_a, fee_b)

/-- One bucket of the partial-withdrawal scaling in
`WithdrawFromPosition::withdraw`: `((b as u128) * remaining / 100) as u64`
with checked `u128` multiply and divide (the identical five-line pattern is
repeated for each of the six buckets in the source). -/
def scale_down (b remaining : Nat) : Except ErrorCode Nat :=
  match checkedMulU128 b remaining with
  | none => Except.error ErrorCode.MathOverflow
  | some x =>
    match checkedDivU128 x 100 with
    | none => Except.error ErrorCode.MathOverflow
    | some y => Except.ok (castU64 y)

/-- `WithdrawFromPosition::withdraw`: percentage gate, checked totals per
token, pro-rata withdrawal amounts and fees in `u128`, checked net
subtraction, then the ledger update (zero everything at 100%, otherwise
scale each of the six buckets by the remaining fraction).  The actual SPL
transfers are capped by the physical vault token balances and do not touch
the `Position` ledger; the returned quadruple
`(net_withdraw_a, net_withdraw_b, fee_a, fee_b)` is the `WithdrawEvent`
payload. -/
def withdraw (prot : ProtocolAuthority) (p : Position) (withdraw_percentage : Nat) :
    Except ErrorCode (Position × Nat × Nat × Nat × Nat) :=
  if ¬ (0 < withdraw_percentage ∧ withdraw_percentage ≤ 100) then
    Except.error ErrorCode.InvalidPercentage
  else
  match checkedAdd p.token_a_vault_balance p.token_a_in_lp with
  | none => Except.error ErrorCode.MathOverflow
  | some ta1 =>
  match checkedAdd ta1 p.token_a_in_lending with
  | none => Except.error ErrorCode.MathOverflow
  | some total_a =>
  match checkedAdd p.token_b_vault_balance p.token_b_in_lp with
  | none => Except.error ErrorCode.MathOverflow
  | some tb1 =>
  match checkedAdd tb1 p.token_b_in_lending with
  | none => Except.error ErrorCode.MathOverflow
  | some total_b =>
  match checkedMulU128 total_a withdraw_percentage with
  | none => Except.error ErrorCode.MathOverflow
  | some wa1 =>
  match checkedDivU128 wa1 100 with
  | none => Except.error ErrorCode.MathOverflow
  | some wa2 =>
  let withdraw_a := castU64 wa2
  match checkedMulU128 total_b withdraw_percentage with
  | none => Except.error ErrorCode.MathOverflow
  | some wb1 =>
  match checkedDivU128 wb1 100 with
  | none => Except.error ErrorCode.MathOverflow
  | some wb2 =>
  let withdraw_b := castU64 wb2
  match compute_fee withdraw_a prot.protocol_fee_bps with
  | Except.error e => Except.error e
  | Except.ok fee_a =>
  match compute_fee withdraw_b prot.protocol_fee_bps with
  | Except.error e => Except.error e
  | Except.ok fee_b =>
  match checkedSub withdraw_a fee_a with
  | none => Except.error ErrorCode.MathOverflow
  | some net_withdraw_a =>
  match checkedSub withdraw_b fee_b with
  | none => Except.error ErrorCode.MathOverflow
  | some net_withdraw_b =>
  if withdraw_percentage = 100 then
    Except.ok
      ({ p with
          token_a_in_lp := 0
          token_b_in_lp := 0
          token_a_in_lending := 0
          token_b_in_lending := 0
          token_a_vault_balance := 0
          token_b_vault_balance := 0 },
       net_withdraw_a, net_withdraw_b, fee_a, fee_b)
  else
    let remaining := 100 - withdraw_percentage
    match scale_down p.token_a_in_lp remaining with
    | Except.error e => Except.error e
    | Except.ok lpA =>
    match scale_down p.token_b_in_lp remaining with
    | Except.error e => Except.error e
    | Except.ok lpB =>
    match scale_down p.token_a_in_lending remaining with
    | Except.error e => Except.error e
    | Except.ok lendA =>
    match scale_down p.token_b_in_lending remaining with
    | Except.error e => Except.error e
    | Except.ok lendB =>
    match scale_down p.token_a_vault_balance remaining with
    | Except.error e => Except.error e
    | Except.ok vaultA =>
    match scale_down p.token_b_vault_balance remaining with
    | Except.error e => Except.error e
    | Except.ok vaultB =>
    Except.ok
      ({ p with
          token_a_in_lp := lpA
          token_b_in_lp := lpB
          token_a_in_lending := lendA
          token_b_in_lending := lendB
          token_a_vault_balance := vaultA
          token_b_vault_balance := vaultB },
       net_withdraw_a, net_withdraw_b, fee_a, fee_b)

/-- What the oracle account yields for one `rebalance_position` call:
`fresh` is whether `get_price_no_older_than` succeeds within the 60-second
staleness bound; `price`/`conf`/`exponent` mirror Pyth's
`(i64, u64, i32)` fields. -/
structure OracleObservation where
  fresh : Bool
  price : Int
  conf : Nat
  exponent : Int
  deriving Repr, DecidableEq

/-- Which optional external-venue accounts the caller passed to
`RebalancePosition` (each group is required as a whole by the `ok_or`
chains in the source). -/
structure ExternalAccounts where
  kamino_accounts : Bool
  meteora_accounts : Bool
  deriving Repr, DecidableEq

/-- `current_price.saturating_sub(confidence)` (rebalance.rs line 194). -/
def price_lower (cp cf : Nat) : Nat := saturatingSub cp cf

/-- `current_price.saturating_add(confidence)` (rebalance.rs line 195). -/
def price_upper (cp cf : Nat) : Nat := saturatingAddU64 cp cf

/-- `definitely_in_range` (rebalance.rs lines 198-199). -/
def definitely_in_range (cp cf mn mx : Nat) : Bool :=
  decide (price_lower cp cf ≥ mn) && decide (price_upper cp cf ≤ mx)

/-- `definitely_out_of_range` (rebalance.rs lines 200-201). -/
def definitely_out_of_range (cp cf mn mx : Nat) : Bool :=
  decide (price_upper cp cf < mn) || decide (price_lower cp cf > mx)

/-- `has_lp` as computed in `should_rebalance` / `execute_rebalance`. -/
def has_lp (p : Position) : Bool :=
  decide (p.token_a_in_lp > 0) || decide (p.token_b_in_lp > 0)

/-- `has_lending` as computed in `should_rebalance` / `execute_rebalance`. -/
def has_lending (p : Position) : Bool :=
  decide (p.token_a_in_lending > 0) || decide (p.token_b_in_lending > 0)

/-- `has_idle` as computed in `should_rebalance` / `execute_rebalance`. -/
def has_idle (p : Position) : Bool :=
  decide (p.token_a_vault_balance > 0) || decide (p.token_b_vault_balance > 0)

/-- `needs_rebalance` (rebalance.rs lines 287-289). -/
def needs_rebalance (p : Position) (in_range : Bool) : Bool :=
  (in_range && has_lending p) || (!in_range && has_lp p) || has_idle p

/-- `MIN_SLOTS_BETWEEN_REBALANCES` (rebalance.rs line 256). -/
def MIN_SLOTS_BETWEEN_REBALANCES : Nat := 25

/-- `REBALANCE_THRESHOLD_BPS` (constants.rs). -/
def REBALANCE_THRESHOLD_BPS : Nat := 100

/-- `RebalancePosition::should_rebalance`: cooldown on elapsed slots,
then the 1% price-movement threshold, then whether a state change is
warranted. -/
def should_rebalance (p : Position) (current_price : Nat) (in_range : Bool)
    (current_slot : Nat) : Except ErrorCode Bool :=
  let slots_since_rebalance := saturatingSub current_slot p.last_rebalance_slot
  if slots_since_rebalance < MIN_SLOTS_BETWEEN_REBALANCES then Except.ok false
  else if p.last_rebalance_price > 0 then
    let price_change :=
      if current_price > p.last_rebalance_price then
        current_price - p.last_rebalance_price
      else
        p.last_rebalance_price - current_price
    match checkedMulU64 price_change 10000 with
    | none => Except.error ErrorCode.MathOverflow
    | some prod =>
      let price_change_bps := prod / p.last_rebalance_price
      if price_change_bps < REBALANCE_THRESHOLD_BPS then Except.ok false
      else Except.ok (needs_rebalance p in_range)
  else Except.ok (needs_rebalance p in_range)

/-- Ledger effect of `RebalancePosition::withdraw_from_kamino`: the
lending balances captured at entry move, via checked adds, into the idle
vault balances; the Kamino CPIs themselves are external side effects. -/
def withdraw_from_kamino (acc : ExternalAccounts) (p : Position) :
    Except RebalanceErr Position :=
  let lending_a := p.token_a_in_lending
  let lending_b := p.token_b_in_lending
  if lending_a = 0 ∧ lending_b = 0 then Except.ok p
  else if ¬ acc.kamino_accounts then
    Except.error (RebalanceErr.program ErrorCode.LendingPositionNotFound)
  else
    let stepA : Except RebalanceErr Position :=
      if lending_a > 0 then
        match checkedAdd p.token_a_vault_balance lending_a with
        | none => Except.error (RebalanceErr.program ErrorCode.MathOverflow)
        | some v => Except.ok { p with token_a_in_lending := 0, token_a_vault_balance := v }
      else Except.ok p
    match stepA with
    | Except.error e => Except.error e
    | Except.ok p1 =>
      if lending_b > 0 then
        match checkedAdd p1.token_b_vault_balance lending_b with
        | none => Except.error (RebalanceErr.program ErrorCode.MathOverflow)
        | some v => Except.ok { p1 with token_b_in_lending := 0, token_b_vault_balance := v }
      else Except.ok p1

/-- Ledger effect of `RebalancePosition::deposit_to_kamino`: the idle
vault balances captured at entry move, via checked adds, into the lending
balances; a missing Kamino obligation handle is initialized first. -/
def deposit_to_kamino (acc : ExternalAccounts) (p : Position) :
    Except RebalanceErr Position :=
  let vault_a := p.token_a_vault_balance
  let vault_b := p.token_b_vault_balance
  if vault_a = 0 ∧ vault_b = 0 then Except.ok p
  else if ¬ acc.kamino_accounts then
    Except.error (RebalanceErr.program ErrorCode.ExternalProtocolError)
  else
    let p0 :=
      if p.kamino_obligation.isNone then { p with kamino_obligation := some () } else p
    let stepA : Except RebalanceErr Position :=
      if vault_a > 0 then
        match checkedAdd p0.token_a_in_lending vault_a with
        | none => Except.error (RebalanceErr.program ErrorCode.MathOverflow)
        | some v => Except.ok { p0 with token_a_vault_balance := 0, token_a_in_lending := v }
      else Except.ok p0
    match stepA with
    | Except.error e => Except.error e
    | Except.ok p1 =>
      if vault_b > 0 then
        match checkedAdd p1.token_b_in_lending vault_b with
        | none => Except.error (RebalanceErr.program ErrorCode.MathOverflow)
        | some v => Except.ok { p1 with token_b_vault_balance := 0, token_b_in_lending := v }
      else Except.ok p1

/-- Ledger effect of `Position::close_meteora_position_cpi`
(protocols/meteora.rs lines 196-287): zero both LP balances and credit
them, via checked adds, to the idle vault balances. -/
def close_meteora_position_cpi (p : Position) : Except RebalanceErr Position :=
  let lp_amount_a := p.token_a_in_lp
  let lp_amount_b := p.token_b_in_lp
  if lp_amount_a = 0 ∧ lp_amount_b = 0 then Except.ok p
  else
    match checkedAdd p.token_a_vault_balance lp_amount_a with
    | none => Except.error (RebalanceErr.program ErrorCode.MathOverflow)
    | some va =>
      match checkedAdd p.token_b_vault_balance lp_amount_b with
      | none => Except.error (RebalanceErr.program ErrorCode.MathOverflow)
      | some vb =>
        Except.ok { p with
          token_a_in_lp := 0
          token_b_in_lp := 0
          token_a_vault_balance := va
          token_b_vault_balance := vb }

/-- `RebalancePosition::close_meteora_position`: no-op when the LP
balances are empty, otherwise requires the Meteora accounts and applies
the close CPI's ledger effect. -/
def close_meteora_position (acc : ExternalAccounts) (p : Position) :
    Except RebalanceErr Position :=
  if p.token_a_in_lp = 0 ∧ p.token_b_in_lp = 0 then Except.ok p
  else if ¬ acc.meteora_accounts then
    Except.error (RebalanceErr.program ErrorCode.LPPositionNotFound)
  else close_meteora_position_cpi p

/-- Ledger effect of `Position::open_meteora_position_cpi`
(protocols/meteora.rs lines 49-178): checked-subtract the deployed
amounts from the idle vault balances and checked-add them to the LP
balances.  The floating-point bin-range computation only shapes the
external instruction payload and is omitted. -/
def open_meteora_position_cpi (p : Position) (amount_x amount_y : Nat) :
    Except RebalanceErr Position :=
  match checkedSub p.token_a_vault_balance amount_x with
  | none => Except.error (RebalanceErr.program ErrorCode.MathOverflow)
  | some va =>
  match checkedSub p.token_b_vault_balance amount_y with
  | none => Except.error (RebalanceErr.program ErrorCode.MathOverflow)
  | some vb =>
  match checkedAdd p.token_a_in_lp amount_x with
  | none => Except.error (RebalanceErr.program ErrorCode.MathOverflow)
  | some la =>
  match checkedAdd p.token_b_in_lp amount_y with
  | none => Except.error (RebalanceErr.program ErrorCode.MathOverflow)
  | some lb =>
  Except.ok { p with
    token_a_vault_balance := va
    token_b_vault_balance := vb
    token_a_in_lp := la
    token_b_in_lp := lb }

/-- `RebalancePosition::open_meteora_position`: no-op when the idle vault
balances are empty, otherwise requires the Meteora accounts and deploys
the full idle balances via the open CPI. -/
def open_meteora_position (acc : ExternalAccounts) (p : Position) :
    Except RebalanceErr Position :=
  let vault_a := p.token_a_vault_balance
  let vault_b := p.token_b_vault_balance
  if vault_a = 0 ∧ vault_b = 0 then Except.ok p
  else if ¬ acc.meteora_accounts then
    Except.error (RebalanceErr.program ErrorCode.ExternalProtocolError)
  else open_meteora_position_cpi p vault_a vault_b

/-- `RebalancePosition::balance_tokens_for_lp`: the Jupiter-swap
placeholder.  It mutates no balances but its checked arithmetic can fail
(in particular `checked_div` by a zero `current_price`). -/
def balance_tokens_for_lp (p : Position) (current_price : Nat) :
    Except RebalanceErr Unit :=
  let vault_a := p.token_a_vault_balance
  let vault_b := p.token_b_vault_balance
  let total_value_a := vault_a
  match checkedMulU64 vault_b current_price with
  | none => Except.error (RebalanceErr.program ErrorCode.MathOverflow)
  | some tb1 =>
  match checkedDivU64 tb1 (10 ^ 9) with
  | none => Except.error (RebalanceErr.program ErrorCode.MathOverflow)
  | some total_value_b =>
  match checkedAdd total_value_a total_value_b with
  | none => Except.error (RebalanceErr.program ErrorCode.MathOverflow)
  | some total_value =>
  if total_value = 0 then Except.ok ()
  else
    let target_value_each := total_value / 2
    if total_value_a > target_value_each then Except.ok ()
    else if total_value_b > target_value_each then
      let excess_value_b := total_value_b - target_value_each
      match checkedMulU64 excess_value_b (10 ^ 9) with
      | none => Except.error (RebalanceErr.program ErrorCode.MathOverflow)
      | some e1 =>
        match checkedDivU64 e1 current_price with
        | none => Except.error (RebalanceErr.program ErrorCode.MathOverflow)
        | some _ => Except.ok ()
    else Except.ok ()

/-- `RebalancePosition::execute_rebalance`: the idle/LP/lending
state-machine driver (the `has_*` flags are captured from the state at
entry, as in the source). -/
def execute_rebalance (acc : ExternalAccounts) (p : Position) (in_range : Bool)
    (current_price : Nat) : Except RebalanceErr (Position × RebalanceAction) :=
  let hLp := has_lp p
  let hLending := has_lending p
  let hIdle := has_idle p
  if in_range then
    let step1 : Except RebalanceErr Position :=
      if hLending then withdraw_from_kamino acc p else Except.ok p
    match step1 with
    | Except.error e => Except.error e
    | Except.ok p1 =>
      if hIdle || hLending then
        match balance_tokens_for_lp p1 current_price with
        | Except.error e => Except.error e
        | Except.ok _ =>
          match open_meteora_position acc p1 with
          | Except.error e => Except.error e
          | Except.ok p2 => Except.ok (p2, RebalanceAction.MoveToLP)
      else Except.ok (p1, RebalanceAction.NoAction)
  else
    let step1 : Except RebalanceErr Position :=
      if hLp then close_meteora_position acc p else Except.ok p
    match step1 with
    | Except.error e => Except.error e
    | Except.ok p1 =>
      if hIdle || hLp then
        match deposit_to_kamino acc p1 with
        | Except.error e => Except.error e
        | Except.ok p2 => Except.ok (p2, RebalanceAction.MoveToLending)
      else Except.ok (p1, RebalanceAction.NoAction)

/-- `RebalancePosition::rebalance`: pause gate, oracle fetch and
normalization, confidence-interval range classification (skipping on the
ambiguous case), the `should_rebalance` gate, then execution and tracking
updates.  `current_slot` is `Clock::get()?.slot`. -/
def rebalance (acc : ExternalAccounts) (p : Position) (o : OracleObservation)
    (current_slot : Nat) : Except RebalanceErr (Position × RebalanceEvent) :=
  if p.pause_flag then Except.error (RebalanceErr.program ErrorCode.PositionPaused)
  else if ¬ o.fresh then Except.error RebalanceErr.pythStale
  else
    match normalize_pyth_price o.price o.exponent 6 with
    | Except.error e => Except.error (RebalanceErr.program e)
    | Except.ok current_price =>
    match normalize_pyth_price (confAsI64 o.conf) o.exponent 6 with
    | Except.error e => Except.error (RebalanceErr.program e)
    | Except.ok confidence =>
      let dIn := definitely_in_range current_price confidence p.lp_range_min p.lp_range_max
      let dOut := definitely_out_of_range current_price confidence p.lp_range_min p.lp_range_max
      if dIn = false ∧ dOut = false then
        Except.ok (p,
          { position_id := p.position_id
            owner := p.owner
            current_price := current_price
            in_range := false
            action := RebalanceAction.NoAction })
      else
        let in_range := dIn
        match should_rebalance p current_price in_range current_slot with
        | Except.error e => Except.error (RebalanceErr.program e)
        | Except.ok go =>
          if go = false then
            Except.ok (p,
              { position_id := p.position_id
                owner := p.owner
                current_price := current_price
                in_range := in_range
                action := RebalanceAction.NoAction })
          else
            match execute_rebalance acc p in_range current_price with
            | Except.error e => Except.error e
            | Except.ok (p1, action) =>
              let p2 := { p1 with
                last_rebalance_price := current_price
                last_rebalance_slot := current_slot
                total_rebalances := saturatingAddU64 p1.total_rebalances 1 }
              Except.ok (p2,
                { position_id := p2.position_id
                  owner := p2.owner
                  current_price := current_price
                  in_range := in_range
                  action := action })

/-! Helper lemmas about the checked-arithmetic primitives. -/

theorem checkedAdd_eq_some {a b v : Nat} (h : checkedAdd a b = some v) :
    v = a + b ∧ a + b ≤ U64_MAX := by
  unfold checkedAdd at h
  split at h
  · exact ⟨(Option.some.injEq _ _).mp h.symm, by assumption⟩
  · cases h

theorem checkedSub_eq_some {a b v : Nat} (h : checkedSub a b = some v) :
    v = a - b ∧ b ≤ a := by
  unfold checkedSub at h
  split at h
  · exact ⟨(Option.some.injEq _ _).mp h.symm, by assumption⟩
  · cases h

theorem price_lower_le_price_upper (cp cf : Nat) (hcp : cp ≤ U64_MAX) :
    price_lower cp cf ≤ price_upper cp cf := by
  unfold price_lower price_upper saturatingSub saturatingAddU64
  omega

/-- C3: for every `(current_price, confidence, range_min, range_max)` with
`range_min < range_max`, exactly one of the three classifications computed
by `RebalancePosition::rebalance` holds: definitely-in
(`price_lower ≥ range_min ∧ price_upper ≤ range_max`), definitely-out
(`price_upper < range_min ∨ price_lower > range_max`), or ambiguous
(neither), where `price_lower`/`price_upper` are the
saturating subtraction and addition confidence bounds. -/
theorem C3_classification_exactly_one (cp cf mn mx : Nat)
    (hcp : cp ≤ U64_MAX) (_hrange : mn < mx) :
    (definitely_in_range cp cf mn mx = true ∧ definitely_out_of_range cp cf mn mx = false)
    ∨ (definitely_in_range cp cf mn mx = false ∧ definitely_out_of_range cp cf mn mx = true)
    ∨ (definitely_in_range cp cf mn mx = false ∧ definitely_out_of_range cp cf mn mx = false) := by
  have hlu := price_lower_le_price_upper cp cf hcp
  cases hIn : definitely_in_range cp cf mn mx
    <;> cases hOut : definitely_out_of_range cp cf mn mx
  · right; right; exact ⟨rfl, rfl⟩
  · right; left; exact ⟨rfl, rfl⟩
  · left; exact ⟨rfl, rfl⟩
  · exfalso
    unfold definitely_in_range at hIn
    unfold definitely_out_of_range at hOut
    simp only [Bool.and_eq_true, Bool.or_eq_true, decide_eq_true_eq] at hIn hOut
    omega

/-- Witness for C3 at a concrete input (the spec's in-range scenario,
scaled to 6-decimal USD): price 150000000 with confidence 1000000 against
range [100000000, 200000000] classifies definitely-in and the three cases
are exclusive there. -/
theorem C3_classification_exactly_one_witness :
    (definitely_in_range 150000000 1000000 100000000 200000000 = true ∧
      definitely_out_of_range 150000000 1000000 100000000 200000000 = false)
    ∨ (definitely_in_range 150000000 1000000 100000000 200000000 = false ∧
      definitely_out_of_range 150000000 1000000 100000000 200000000 = true)
    ∨ (definitely_in_range 150000000 1000000 100000000 200000000 = false ∧
      definitely_out_of_range 150000000 1000000 100000000 200000000 = false) :=
  C3_classification_exactly_one 150000000 1000000 100000000 200000000
    (by decide) (by decide)

/-- C4: for any `u64` amount and `fee_bps ≤ 10000`, the wide-arithmetic
fee computation shared by `DepositToPosition::deposit` and
`WithdrawFromPosition::withdraw` succeeds, the checked net subtraction
succeeds, and fee plus net reassembles the amount exactly. -/
theorem C4_fee_plus_net_eq_amount (amount fee_bps : Nat)
    (hamt : amount ≤ U64_MAX) (hbps : fee_bps ≤ 10000) :
    ∃ fee net, compute_fee amount fee_bps = Except.ok fee ∧
      checkedSub amount fee = some net ∧ fee + net = amount := by
  have hfee_le : amount * fee_bps / 10000 ≤ amount := by
    have h1 : amount * fee_bps ≤ amount * 10000 := Nat.mul_le_mul_left _ hbps
    have h2 : amount * fee_bps / 10000 ≤ amount * 10000 / 10000 :=
      Nat.div_le_div_right h1
    simpa [Nat.mul_div_cancel] using h2
  have hmul : amount * fee_bps ≤ U128_MAX := by
    have h1 : amount * fee_bps ≤ U64_MAX * 10000 := Nat.mul_le_mul hamt hbps
    unfold U64_MAX U128_MAX at *
    omega
  refine ⟨amount * fee_bps / 10000, amount - amount * fee_bps / 10000, ?_, ?_, ?_⟩
  · unfold compute_fee checkedMulU128 checkedDivU128 castU64
    rw [if_pos hmul]
    simp only [OfNat.ofNat_ne_zero, if_false]
    have : amount * fee_bps / 10000 < U64_MOD := by
      unfold U64_MOD U64_MAX at *
      omega
    rw [Nat.mod_eq_of_lt this]
  · unfold checkedSub
    rw [if_pos hfee_le]
  · omega

/-- Witness for C4: amount 1000000 at 50 bps gives fee 5000, net 995000,
summing back to 1000000. -/
theorem C4_fee_plus_net_eq_amount_witness :
    ∃ fee net, compute_fee 1000000 50 = Except.ok fee ∧
      checkedSub 1000000 fee = some net ∧ fee + net = 1000000 :=
  C4_fee_plus_net_eq_amount 1000000 50 (by decide) (by decide)

/-- Counterexample for C7 as stated: on raw_price 15000000000, exponent
−8, target 6 decimals, `normalize_pyth_price` returns 150000000 ($150 at
6-decimal USD), not the claimed 1500000 ($1.50). -/
theorem C7_normalizer_counterexample :
    normalize_pyth_price 15000000000 (-8) 6 = Except.ok 150000000 ∧
    (150000000 : Nat) ≠ 1500000 :=
  ⟨rfl, by decide⟩

/-- C7 (amended): `normalize_pyth_price` fails with `StalePriceData` on
non-positive raw prices; with source decimals `d = (-exponent) as u8`
exceeding the target (and small enough that `10^(d−6)` fits a `u64`) it
floor-divides by `10^(d−6)`; with fewer source decimals it multiplies by
`10^(6−d)`, failing with `MathOverflow` exactly when the product exceeds
`u64::MAX`; and on the spec's scenario input (15000000000, −8, 6) it
returns 150000000, i.e. $150 at 6-decimal USD (not 1500000). -/
theorem C7_normalizer (price exponent : Int) :
    (price ≤ 0 →
      normalize_pyth_price price exponent 6 = Except.error ErrorCode.StalePriceData)
    ∧ (∀ d : Nat, 0 < price → ((-exponent).emod 256).toNat = d → 6 < d → d ≤ 25 →
        normalize_pyth_price price exponent 6 = Except.ok (price.toNat / 10 ^ (d - 6)))
    ∧ (∀ d : Nat, 0 < price → ((-exponent).emod 256).toNat = d → d < 6 →
        normalize_pyth_price price exponent 6 =
          (if price.toNat * 10 ^ (6 - d) ≤ U64_MAX
            then Except.ok (price.toNat * 10 ^ (6 - d))
            else Except.error ErrorCode.MathOverflow))
    ∧ normalize_pyth_price 15000000000 (-8) 6 = Except.ok 150000000 := by
  refine ⟨?_, ?_, ?_, rfl⟩
  · intro hle
    unfold normalize_pyth_price
    rw [if_pos hle]
  · intro d hpos hd hgt hle
    unfold normalize_pyth_price
    rw [if_neg (by omega)]
    subst hd
    rw [if_pos hgt]
    have hpow : pow10U64 (((-exponent).emod 256).toNat - 6)
        = 10 ^ (((-exponent).emod 256).toNat - 6) := by
      unfold pow10U64 U64_MOD
      have h10 : (10 : Nat) ^ (((-exponent).emod 256).toNat - 6) ≤ 10 ^ 19 :=
        Nat.pow_le_pow_right (by norm_num) (by omega)
      have : (10 : Nat) ^ 19 < 2 ^ 64 := by norm_num
      exact Nat.mod_eq_of_lt (by omega)
    rw [hpow]
  · intro d hpos hd hlt
    unfold normalize_pyth_price
    rw [if_neg (by omega)]
    subst hd
    rw [if_neg (by omega), if_pos hlt]
    have hpow : pow10U64 (6 - ((-exponent).emod 256).toNat)
        = 10 ^ (6 - ((-exponent).emod 256).toNat) := by
      unfold pow10U64 U64_MOD
      have h10 : (10 : Nat) ^ (6 - ((-exponent).emod 256).toNat) ≤ 10 ^ 6 :=
        Nat.pow_le_pow_right (by norm_num) (by omega)
      have : (10 : Nat) ^ 6 < 2 ^ 64 := by norm_num
      exact Nat.mod_eq_of_lt (by omega)
    rw [hpow]
    unfold checkedMulU64
    split
    · simp_all
    · rename_i hgt
      simp only [if_neg hgt]

/-- Witness for C7 (amended), instantiating the divide branch on the
scenario input and the error branch on a non-positive price. -/
theorem C7_normalizer_witness :
    (normalize_pyth_price 15000000000 (-8) 6
      = Except.ok ((15000000000 : Int).toNat / 10 ^ (8 - 6)))
    ∧ normalize_pyth_price (-5) 3 6 = Except.error ErrorCode.StalePriceData :=
  ⟨(C7_normalizer 15000000000 (-8)).2.1 8 (by decide) (by decide)
      (by decide) (by decide),
   (C7_normalizer (-5) 3).1 (by decide)⟩

theorem checkedMulU128_eq_some {a b v : Nat} (h : checkedMulU128 a b = some v) :
    v = a * b ∧ a * b ≤ U128_MAX := by
  unfold checkedMulU128 at h
  split at h
  · exact ⟨(Option.some.injEq _ _).mp h.symm, by assumption⟩
  · cases h

theorem checkedDivU128_100 (x : Nat) : checkedDivU128 x 100 = some (x / 100) := by
  unfold checkedDivU128
  norm_num

theorem scale_down_eq_ok {b r v : Nat} (h : scale_down b r = Except.ok v)
    (hb : b ≤ U64_MAX) (hr : r ≤ 100) : v = b * r / 100 := by
  have hble : b * r / 100 ≤ b := by
    have h1 : b * r ≤ b * 100 := Nat.mul_le_mul_left _ hr
    calc b * r / 100 ≤ b * 100 / 100 := Nat.div_le_div_right h1
      _ = b := by omega
  unfold scale_down at h
  cases hmul : checkedMulU128 b r with
  | none => simp [hmul] at h
  | some x =>
    obtain ⟨hx, -⟩ := checkedMulU128_eq_some hmul
    subst hx
    simp only [hmul, checkedDivU128_100, Except.ok.injEq] at h
    subst h
    unfold castU64
    rw [Nat.mod_eq_of_lt (by unfold U64_MOD U64_MAX at *; omega)]

/-- C5: whenever `WithdrawFromPosition::withdraw` succeeds with
percentage `pct`, a 100% withdrawal zeroes all six fund-location
balances, and a partial withdrawal independently replaces each of the
six balances `b` by `⌊b * (100 − pct) / 100⌋`. -/
theorem C5_withdraw_bucket_policy (prot : ProtocolAuthority) (p : Position)
    (pct : Nat) (p' : Position) (na nb fa fb : Nat)
    (h : withdraw prot p pct = Except.ok (p', na, nb, fa, fb)) :
    (pct = 100 →
      p'.token_a_vault_balance = 0 ∧ p'.token_b_vault_balance = 0 ∧
      p'.token_a_in_lp = 0 ∧ p'.token_b_in_lp = 0 ∧
      p'.token_a_in_lending = 0 ∧ p'.token_b_in_lending = 0)
    ∧ (pct < 100 →
      p'.token_a_vault_balance = p.token_a_vault_balance * (100 - pct) / 100 ∧
      p'.token_b_vault_balance = p.token_b_vault_balance * (100 - pct) / 100 ∧
      p'.token_a_in_lp = p.token_a_in_lp * (100 - pct) / 100 ∧
      p'.token_b_in_lp = p.token_b_in_lp * (100 - pct) / 100 ∧
      p'.token_a_in_lending = p.token_a_in_lending * (100 - pct) / 100 ∧
      p'.token_b_in_lending = p.token_b_in_lending * (100 - pct) / 100) := by
  unfold withdraw at h
  split at h
  · exact absurd h (by simp)
  cases hta1 : checkedAdd p.token_a_vault_balance p.token_a_in_lp with
  | none => simp [hta1] at h
  | some ta1 =>
  simp only [hta1] at h
  cases htotA : checkedAdd ta1 p.token_a_in_lending with
  | none => simp [htotA] at h
  | some total_a =>
  simp only [htotA] at h
  cases htb1 : checkedAdd p.token_b_vault_balance p.token_b_in_lp with
  | none => simp [htb1] at h
  | some tb1 =>
  simp only [htb1] at h
  cases htotB : checkedAdd tb1 p.token_b_in_lending with
  | none => simp [htotB] at h
  | some total_b =>
  simp only [htotB] at h
  cases hwa1 : checkedMulU128 total_a pct with
  | none => simp [hwa1] at h
  | some wa1 =>
  simp only [hwa1] at h
  cases hwa2 : checkedDivU128 wa1 100 with
  | none => simp [hwa2] at h
  | some wa2 =>
  simp only [hwa2] at h
  cases hwb1 : checkedMulU128 total_b pct with
  | none => simp [hwb1] at h
  | some wb1 =>
  simp only [hwb1] at h
  cases hwb2 : checkedDivU128 wb1 100 with
  | none => simp [hwb2] at h
  | some wb2 =>
  simp only [hwb2] at h
  cases hfeea : compute_fee (castU64 wa2) prot.protocol_fee_bps with
  | error e => simp [hfeea] at h
  | ok fee_a =>
  simp only [hfeea] at h
  cases hfeeb : compute_fee (castU64 wb2) prot.protocol_fee_bps with
  | error e => simp [hfeeb] at h
  | ok fee_b =>
  simp only [hfeeb] at h
  cases hneta : checkedSub (castU64 wa2) fee_a with
  | none => simp [hneta] at h
  | some net_a =>
  simp only [hneta] at h
  cases hnetb : checkedSub (castU64 wb2) fee_b with
  | none => simp [hnetb] at h
  | some net_b =>
  simp only [hnetb] at h
  obtain ⟨-, hA1le⟩ := checkedAdd_eq_some hta1
  obtain ⟨hAe, hAle⟩ := checkedAdd_eq_some htotA
  obtain ⟨-, hB1le⟩ := checkedAdd_eq_some htb1
  obtain ⟨hBe, hBle⟩ := checkedAdd_eq_some htotB
  by_cases hpct : pct = 100
  · rw [if_pos hpct] at h
    simp only [Except.ok.injEq, Prod.mk.injEq] at h
    obtain ⟨hp, -, -, -, -⟩ := h
    subst hp
    exact ⟨fun _ => ⟨rfl, rfl, rfl, rfl, rfl, rfl⟩,
      fun hlt => absurd hpct (by omega)⟩
  · rw [if_neg hpct] at h
    cases hlpA : scale_down p.token_a_in_lp (100 - pct) with
    | error e => simp [hlpA] at h
    | ok lpA =>
    simp only [hlpA] at h
    cases hlpB : scale_down p.token_b_in_lp (100 - pct) with
    | error e => simp [hlpB] at h
    | ok lpB =>
    simp only [hlpB] at h
    cases hlendA : scale_down p.token_a_in_lending (100 - pct) with
    | error e => simp [hlendA] at h
    | ok lendA =>
    simp only [hlendA] at h
    cases hlendB : scale_down p.token_b_in_lending (100 - pct) with
    | error e => simp [hlendB] at h
    | ok lendB =>
    simp only [hlendB] at h
    cases hvaultA : scale_down p.token_a_vault_balance (100 - pct) with
    | error e => simp [hvaultA] at h
    | ok vaultA =>
    simp only [hvaultA] at h
    cases hvaultB : scale_down p.token_b_vault_balance (100 - pct) with
    | error e => simp [hvaultB] at h
    | ok vaultB =>
    simp only [hvaultB, Except.ok.injEq, Prod.mk.injEq] at h
    obtain ⟨hp, -, -, -, -⟩ := h
    subst hp
    refine ⟨fun h100 => absurd h100 hpct, fun _ => ?_⟩
    refine ⟨?_, ?_, ?_, ?_, ?_, ?_⟩
    · exact scale_down_eq_ok hvaultA (by omega) (by omega)
    · exact scale_down_eq_ok hvaultB (by omega) (by omega)
    · exact scale_down_eq_ok hlpA (by omega) (by omega)
    · exact scale_down_eq_ok hlpB (by omega) (by omega)
    · exact scale_down_eq_ok hlendA (by omega) (by omega)
    · exact scale_down_eq_ok hlendB (by omega) (by omega)

/-- A zero-fee protocol state used by concrete witnesses. -/
def wProt : ProtocolAuthority :=
  { fee_recipient := 1, protocol_fee_bps := 0, total_positions := 1 }

/-- The spec's withdrawal scenario position: idle_A = 500, lp_A = 300,
lending_A = 200, token B empty. -/
def wPosC5 : Position :=
  { owner := 2, position_id := 1, token_a_mint := 3, token_b_mint := 4,
    token_a_vault_balance := 500, token_b_vault_balance := 0,
    token_a_in_lp := 300, token_b_in_lp := 0,
    token_a_in_lending := 200, token_b_in_lending := 0,
    lp_range_min := 100000000, lp_range_max := 200000000,
    pause_flag := false, created_at := 0,
    last_rebalance_price := 0, last_rebalance_slot := 0, total_rebalances := 0,
    meteora_position := none, kamino_obligation := none }

/-- `wPosC5` after a 100% withdrawal: every bucket zeroed. -/
def wPosC5After : Position :=
  { wPosC5 with token_a_vault_balance := 0, token_a_in_lp := 0, token_a_in_lending := 0 }

/-- Witness for C5: withdrawing 100% from the scenario position under a
0-bps fee succeeds, reports net_a = 1000 (and zero fee), and the bucket
zeroing follows from the general theorem at this input. -/
theorem C5_withdraw_bucket_policy_witness :
    withdraw wProt wPosC5 100 = Except.ok (wPosC5After, 1000, 0, 0, 0)
    ∧ (wPosC5After.token_a_vault_balance = 0 ∧ wPosC5After.token_b_vault_balance = 0 ∧
       wPosC5After.token_a_in_lp = 0 ∧ wPosC5After.token_b_in_lp = 0 ∧
       wPosC5After.token_a_in_lending = 0 ∧ wPosC5After.token_b_in_lending = 0) := by
  have heq : withdraw wProt wPosC5 100 = Except.ok (wPosC5After, 1000, 0, 0, 0) := by rfl
  exact ⟨heq, (C5_withdraw_bucket_policy wProt wPosC5 100 wPosC5After 1000 0 0 0 heq).1 rfl⟩

/-- C6: `CreatePosition::init_position` fails with `InvalidPriceRange`
when `range_min ≥ range_max`, fails with `InvalidPositionId` when the
requested id is not the user's `total_positions_created + 1`, and on
success returns the zero-balance unpaused position and increments the
user's `position_count` and `total_positions_created` and the protocol's
`total_positions` each by one. -/
theorem C6_create_position (user : UserMainAccount) (prot : ProtocolAuthority)
    (owner ma mb : Pubkey) (pid mn mx : Nat) (now : Int)
    (hu : user.total_positions_created < U64_MAX)
    (hc : user.position_count < U64_MAX)
    (hp : prot.total_positions < U64_MAX) :
    (mx ≤ mn →
      init_position user prot owner ma mb pid mn mx now
        = Except.error ErrorCode.InvalidPriceRange)
    ∧ (mn < mx → pid ≠ user.total_positions_created + 1 →
      init_position user prot owner ma mb pid mn mx now
        = Except.error ErrorCode.InvalidPositionId)
    ∧ (mn < mx → pid = user.total_positions_created + 1 →
      init_position user prot owner ma mb pid mn mx now
        = Except.ok
          ({ owner := owner, position_id := pid, token_a_mint := ma, token_b_mint := mb,
             token_a_vault_balance := 0, token_b_vault_balance := 0,
             token_a_in_lp := 0, token_b_in_lp := 0,
             token_a_in_lending := 0, token_b_in_lending := 0,
             lp_range_min := mn, lp_range_max := mx,
             pause_flag := false, created_at := now,
             last_rebalance_price := 0, last_rebalance_slot := 0, total_rebalances := 0,
             meteora_position := none, kamino_obligation := none },
           { user with
              position_count := user.position_count + 1,
              total_positions_created := user.total_positions_created + 1 },
           { prot with total_positions := prot.total_positions + 1 })) := by
  have hcast1 : castU64 (user.position_count + 1) = user.position_count + 1 := by
    unfold castU64 U64_MOD U64_MAX at *
    exact Nat.mod_eq_of_lt (by omega)
  have hcast2 : castU64 (user.total_positions_created + 1)
      = user.total_positions_created + 1 := by
    unfold castU64 U64_MOD U64_MAX at *
    exact Nat.mod_eq_of_lt (by omega)
  have hcast3 : castU64 (prot.total_positions + 1) = prot.total_positions + 1 := by
    unfold castU64 U64_MOD U64_MAX at *
    exact Nat.mod_eq_of_lt (by omega)
  refine ⟨?_, ?_, ?_⟩
  · intro hge
    unfold init_position
    rw [if_pos (by omega)]
  · intro hlt hne
    unfold init_position
    rw [if_neg (not_not_intro hlt), hcast2, if_pos hne]
  · intro hlt heq
    unfold init_position
    rw [if_neg (not_not_intro hlt), hcast2, if_neg (not_not_intro heq), hcast1, hcast3]

/-- Witness for C6: for a fresh user, ids 1, 2, 3 in order succeed while
id 2 before id 1, and id 1 twice, fail with `InvalidPositionId`, and an
inverted range fails with `InvalidPriceRange`. -/
theorem C6_create_position_witness :
    (init_position ⟨7, 0, 0⟩ ⟨1, 0, 0⟩ 7 3 4 2 100 200 0
      = Except.error ErrorCode.InvalidPositionId)
    ∧ (init_position ⟨7, 1, 1⟩ ⟨1, 0, 1⟩ 7 3 4 1 100 200 0
      = Except.error ErrorCode.InvalidPositionId)
    ∧ (init_position ⟨7, 0, 0⟩ ⟨1, 0, 0⟩ 7 3 4 1 200 100 0
      = Except.error ErrorCode.InvalidPriceRange)
    ∧ (∃ rest, init_position ⟨7, 0, 0⟩ ⟨1, 0, 0⟩ 7 3 4 1 100 200 0 = Except.ok rest)
    ∧ (∃ rest, init_position ⟨7, 1, 1⟩ ⟨1, 0, 1⟩ 7 3 4 2 100 200 0 = Except.ok rest)
    ∧ (∃ rest, init_position ⟨7, 2, 2⟩ ⟨1, 0, 2⟩ 7 3 4 3 100 200 0 = Except.ok rest) :=
  ⟨(C6_create_position ⟨7, 0, 0⟩ ⟨1, 0, 0⟩ 7 3 4 2 100 200 0
      (by decide) (by decide) (by decide)).2.1 (by decide) (by decide),
   (C6_create_position ⟨7, 1, 1⟩ ⟨1, 0, 1⟩ 7 3 4 1 100 200 0
      (by decide) (by decide) (by decide)).2.1 (by decide) (by decide),
   (C6_create_position ⟨7, 0, 0⟩ ⟨1, 0, 0⟩ 7 3 4 1 200 100 0
      (by decide) (by decide) (by decide)).1 (by decide),
   ⟨_, (C6_create_position ⟨7, 0, 0⟩ ⟨1, 0, 0⟩ 7 3 4 1 100 200 0
      (by decide) (by decide) (by decide)).2.2 (by decide) (by decide)⟩,
   ⟨_, (C6_create_position ⟨7, 1, 1⟩ ⟨1, 0, 1⟩ 7 3 4 2 100 200 0
      (by decide) (by decide) (by decide)).2.2 (by decide) (by decide)⟩,
   ⟨_, (C6_create_position ⟨7, 2, 2⟩ ⟨1, 0, 2⟩ 7 3 4 3 100 200 0
      (by decide) (by decide) (by decide)).2.2 (by decide) (by decide)⟩⟩

/-- C10: re-invoking `initialize_user` overwrites the user account with
zeroed counters regardless of its prior content (the handler runs under
`init_if_needed` with no freshness check), so afterwards
`create_position` accepts only position id 1 and rejects every other id
with `InvalidPositionId`. -/
theorem C10_reinit_user_resets (owner : Pubkey) (prior : Option UserMainAccount)
    (prot : ProtocolAuthority) (ma mb : Pubkey) (pid mn mx : Nat) (now : Int) :
    init_user owner prior
      = { owner := owner, position_count := 0, total_positions_created := 0 }
    ∧ (mn < mx → pid ≠ 1 →
        init_position (init_user owner prior) prot owner ma mb pid mn mx now
          = Except.error ErrorCode.InvalidPositionId)
    ∧ (mn < mx →
        ∃ rest, init_position (init_user owner prior) prot owner ma mb 1 mn mx now
          = Except.ok rest) := by
  have hnext : castU64 ((init_user owner prior).total_positions_created + 1) = 1 := by
    show castU64 (0 + 1) = 1
    decide
  refine ⟨rfl, ?_, ?_⟩
  · intro hlt hne
    unfold init_position
    rw [if_neg (not_not_intro hlt), hnext, if_pos hne]
  · intro hlt
    exact ⟨_, by
      unfold init_position
      rw [if_neg (not_not_intro hlt), hnext, if_neg (not_not_intro rfl)]⟩

/-- Witness for C10: a user account holding counters (5, 7) is reset to
zeros, after which id 8 (the id the old counters would have required) is
rejected and id 1 is accepted again. -/
theorem C10_reinit_user_resets_witness :
    init_user 9 (some ⟨9, 5, 7⟩)
      = { owner := 9, position_count := 0, total_positions_created := 0 }
    ∧ (init_position (init_user 9 (some ⟨9, 5, 7⟩)) ⟨1, 0, 3⟩ 9 3 4 8 100 200 0
        = Except.error ErrorCode.InvalidPositionId)
    ∧ (∃ rest, init_position (init_user 9 (some ⟨9, 5, 7⟩)) ⟨1, 0, 3⟩ 9 3 4 1 100 200 0
        = Except.ok rest) :=
  ⟨(C10_reinit_user_resets 9 (some ⟨9, 5, 7⟩) ⟨1, 0, 3⟩ 3 4 8 100 200 0).1,
   (C10_reinit_user_resets 9 (some ⟨9, 5, 7⟩) ⟨1, 0, 3⟩ 3 4 8 100 200 0).2.1
      (by decide) (by decide),
   (C10_reinit_user_resets 9 (some ⟨9, 5, 7⟩) ⟨1, 0, 3⟩ 3 4 8 100 200 0).2.2 (by decide)⟩

theorem deposit_pause_comm (prot : ProtocolAuthority) (p : Position) (b : Bool)
    (aa ab : Nat) :
    deposit prot { p with pause_flag := b } aa ab
      = Except.map (fun r => ({ r.1 with pause_flag := b }, r.2))
          (deposit prot p aa ab) := by
  unfold deposit
  simp only []
  cases hfa : compute_fee aa prot.protocol_fee_bps with
  | error e => simp only [hfa]; rfl
  | ok fee_a =>
  simp only [hfa]
  cases hfb : compute_fee ab prot.protocol_fee_bps with
  | error e => simp only [hfb]; rfl
  | ok fee_b =>
  simp only [hfb]
  cases hsa : checkedSub aa fee_a with
  | none => simp only [hsa]; rfl
  | some da =>
  simp only [hsa]
  cases hsb : checkedSub ab fee_b with
  | none => simp only [hsb]; rfl
  | some db =>
  simp only [hsb]
  by_cases haa : aa > 0
  · simp only [if_pos haa]
    cases hva : checkedAdd p.token_a_vault_balance da with
    | none => simp only [hva]; rfl
    | some va =>
    simp only [hva]
    by_cases hab : ab > 0
    · simp only [if_pos hab]
      cases hvb : checkedAdd p.token_b_vault_balance db with
      | none => simp only [hvb]; rfl
      | some vb => simp only [hvb]; rfl
    · simp only [if_neg hab]; rfl
  · simp only [if_neg haa]
    by_cases hab : ab > 0
    · simp only [if_pos hab]
      cases hvb : checkedAdd p.token_b_vault_balance db with
      | none => simp only [hvb]; rfl
      | some vb => simp only [hvb]; rfl
    · simp only [if_neg hab]; rfl

theorem withdraw_pause_comm (prot : ProtocolAuthority) (p : Position) (b : Bool)
    (pct : Nat) :
    withdraw prot { p with pause_flag := b } pct
      = Except.map (fun r => ({ r.1 with pause_flag := b }, r.2))
          (withdraw prot p pct) := by
  unfold withdraw
  simp only []
  by_cases hgate : 0 < pct ∧ pct ≤ 100
  · simp only [if_neg (not_not_intro hgate)]
    cases hta1 : checkedAdd p.token_a_vault_balance p.token_a_in_lp with
    | none => simp only [hta1]; rfl
    | some ta1 =>
    simp only [hta1]
    cases htotA : checkedAdd ta1 p.token_a_in_lending with
    | none => simp only [htotA]; rfl
    | some total_a =>
    simp only [htotA]
    cases htb1 : checkedAdd p.token_b_vault_balance p.token_b_in_lp with
    | none => simp only [htb1]; rfl
    | some tb1 =>
    simp only [htb1]
    cases htotB : checkedAdd tb1 p.token_b_in_lending with
    | none => simp only [htotB]; rfl
    | some total_b =>
    simp only [htotB]
    cases hwa1 : checkedMulU128 total_a pct with
    | none => simp only [hwa1]; rfl
    | some wa1 =>
    simp only [hwa1]
    cases hwa2 : checkedDivU128 wa1 100 with
    | none => simp only [hwa2]; rfl
    | some wa2 =>
    simp only [hwa2]
    cases hwb1 : checkedMulU128 total_b pct with
    | none => simp only [hwb1]; rfl
    | some wb1 =>
    simp only [hwb1]
    cases hwb2 : checkedDivU128 wb1 100 with
    | none => simp only [hwb2]; rfl
    | some wb2 =>
    simp only [hwb2]
    cases hfeea : compute_fee (castU64 wa2) prot.protocol_fee_bps with
    | error e => simp only [hfeea]; rfl
    | ok fee_a =>
    simp only [hfeea]
    cases hfeeb : compute_fee (castU64 wb2) prot.protocol_fee_bps with
    | error e => simp only [hfeeb]; rfl
    | ok fee_b =>
    simp only [hfeeb]
    cases hneta : checkedSub (castU64 wa2) fee_a with
    | none => simp only [hneta]; rfl
    | some net_a =>
    simp only [hneta]
    cases hnetb : checkedSub (castU64 wb2) fee_b with
    | none => simp only [hnetb]; rfl
    | some net_b =>
    simp only [hnetb]
    by_cases hpct : pct = 100
    · simp only [if_pos hpct]; rfl
    · simp only [if_neg hpct]
      cases hlpA : scale_down p.token_a_in_lp (100 - pct) with
      | error e => simp only [hlpA]; rfl
      | ok lpA =>
      simp only [hlpA]
      cases hlpB : scale_down p.token_b_in_lp (100 - pct) with
      | error e => simp only [hlpB]; rfl
      | ok lpB =>
      simp only [hlpB]
      cases hlendA : scale_down p.token_a_in_lending (100 - pct) with
      | error e => simp only [hlendA]; rfl
      | ok lendA =>
      simp only [hlendA]
      cases hlendB : scale_down p.token_b_in_lending (100 - pct) with
      | error e => simp only [hlendB]; rfl
      | ok lendB =>
      simp only [hlendB]
      cases hvaultA : scale_down p.token_a_vault_balance (100 - pct) with
      | error e => simp only [hvaultA]; rfl
      | ok vaultA =>
      simp only [hvaultA]
      cases hvaultB : scale_down p.token_b_vault_balance (100 - pct) with
      | error e => simp only [hvaultB]; rfl
      | ok vaultB => simp only [hvaultB]; rfl
  · simp only [if_pos hgate]; rfl

/-- C8: a paused position makes `rebalance_position` fail with
`PositionPaused` regardless of the oracle observation or slot (the gate
runs before any price lookup and no state is returned); `deposit` and
`withdraw` are oblivious to the pause flag — they behave identically on a
paused position and preserve the flag; and `pause`/`resume` set only the
pause flag. -/
theorem C8_pause_gating (acc : ExternalAccounts) (p : Position)
    (o : OracleObservation) (slot : Nat) (prot : ProtocolAuthority)
    (aa ab pct : Nat) (b : Bool) :
    (p.pause_flag = true →
      rebalance acc p o slot
        = Except.error (RebalanceErr.program ErrorCode.PositionPaused))
    ∧ deposit prot { p with pause_flag := b } aa ab
        = Except.map (fun r => ({ r.1 with pause_flag := b }, r.2))
            (deposit prot p aa ab)
    ∧ withdraw prot { p with pause_flag := b } pct
        = Except.map (fun r => ({ r.1 with pause_flag := b }, r.2))
            (withdraw prot p pct)
    ∧ pause p = { p with pause_flag := true }
    ∧ resume p = { p with pause_flag := false } := by
  refine ⟨?_, deposit_pause_comm prot p b aa ab, withdraw_pause_comm prot p b pct,
    rfl, rfl⟩
  intro hflag
  unfold rebalance
  rw [if_pos hflag]

/-- Witness for C8: a concrete paused position is rejected by
`rebalance` with `PositionPaused`. -/
theorem C8_pause_gating_witness :
    rebalance ⟨true, true⟩ { wPosC5 with pause_flag := true } ⟨true, 150, 10, -6⟩ 100
      = Except.error (RebalanceErr.program ErrorCode.PositionPaused) :=
  (C8_pause_gating ⟨true, true⟩ { wPosC5 with pause_flag := true }
    ⟨true, 150, 10, -6⟩ 100 wProt 0 0 50 true).1 rfl

/-- C2: whenever the confidence-interval classification is ambiguous
(neither definitely in nor definitely out of range), a rebalance attempt
on an unpaused position with a fresh oracle reading returns successfully,
emits a `RebalanceEvent` with action `NoAction`, and leaves the position
— in particular all six fund-location balances — unchanged. -/
theorem C2_ambiguous_noaction (acc : ExternalAccounts) (p : Position)
    (o : OracleObservation) (slot cp cf : Nat)
    (hpause : p.pause_flag = false) (hfresh : o.fresh = true)
    (hcp : normalize_pyth_price o.price o.exponent 6 = Except.ok cp)
    (hcf : normalize_pyth_price (confAsI64 o.conf) o.exponent 6 = Except.ok cf)
    (hin : definitely_in_range cp cf p.lp_range_min p.lp_range_max = false)
    (hout : definitely_out_of_range cp cf p.lp_range_min p.lp_range_max = false) :
    rebalance acc p o slot
      = Except.ok (p,
        { position_id := p.position_id, owner := p.owner, current_price := cp,
          in_range := false, action := RebalanceAction.NoAction }) := by
  unfold rebalance
  rw [if_neg (by simp [hpause]), if_neg (not_not_intro hfresh)]
  simp only [hcp, hcf]
  rw [if_pos ⟨hin, hout⟩]

/-- Witness for C2: price 100000000 with confidence 10 straddles the
lower bound of the range [100000000, 200000000]; the call returns
`NoAction` with the position intact. -/
theorem C2_ambiguous_noaction_witness :
    rebalance ⟨true, true⟩ wPosC5 ⟨true, 100000000, 10, -6⟩ 500
      = Except.ok (wPosC5,
        { position_id := wPosC5.position_id, owner := wPosC5.owner,
          current_price := 100000000, in_range := false,
          action := RebalanceAction.NoAction }) :=
  C2_ambiguous_noaction ⟨true, true⟩ wPosC5 ⟨true, 100000000, 10, -6⟩ 500
    100000000 10 rfl rfl rfl rfl (by decide) (by decide)

/-! Conservation of the per-token three-bucket sums across each ledger
move of the rebalance executor. -/

theorem withdraw_from_kamino_conserves {acc : ExternalAccounts} {p p' : Position}
    (h : withdraw_from_kamino acc p = Except.ok p') :
    p'.token_a_vault_balance + p'.token_a_in_lp + p'.token_a_in_lending
      = p.token_a_vault_balance + p.token_a_in_lp + p.token_a_in_lending
    ∧ p'.token_b_vault_balance + p'.token_b_in_lp + p'.token_b_in_lending
      = p.token_b_vault_balance + p.token_b_in_lp + p.token_b_in_lending := by
  unfold withdraw_from_kamino at h
  by_cases h0 : p.token_a_in_lending = 0 ∧ p.token_b_in_lending = 0
  · simp only [if_pos h0, Except.ok.injEq] at h
    subst h
    exact ⟨rfl, rfl⟩
  · simp only [if_neg h0] at h
    by_cases hacc : acc.kamino_accounts
    · simp only [if_neg (not_not_intro hacc)] at h
      by_cases hla : p.token_a_in_lending > 0
      · simp only [if_pos hla] at h
        cases hva : checkedAdd p.token_a_vault_balance p.token_a_in_lending with
        | none => simp [hva] at h
        | some va =>
        simp only [hva] at h
        obtain ⟨hvaeq, -⟩ := checkedAdd_eq_some hva
        by_cases hlb : p.token_b_in_lending > 0
        · simp only [if_pos hlb] at h
          cases hvb : checkedAdd p.token_b_vault_balance p.token_b_in_lending with
          | none => simp [hvb] at h
          | some vb =>
          simp only [hvb, Except.ok.injEq] at h
          obtain ⟨hvbeq, -⟩ := checkedAdd_eq_some hvb
          subst h
          exact ⟨by simp only [] <;> omega, by simp only [] <;> omega⟩
        · simp only [if_neg hlb, Except.ok.injEq] at h
          subst h
          exact ⟨by simp only [] <;> omega, by simp only [] <;> omega⟩
      · simp only [if_neg hla] at h
        by_cases hlb : p.token_b_in_lending > 0
        · simp only [if_pos hlb] at h
          cases hvb : checkedAdd p.token_b_vault_balance p.token_b_in_lending with
          | none => simp [hvb] at h
          | some vb =>
          simp only [hvb, Except.ok.injEq] at h
          obtain ⟨hvbeq, -⟩ := checkedAdd_eq_some hvb
          subst h
          exact ⟨by simp only [] <;> omega, by simp only [] <;> omega⟩
        · simp only [if_neg hlb, Except.ok.injEq] at h
          subst h
          exact ⟨rfl, rfl⟩
    · rw [if_pos hacc] at h
      cases h

theorem deposit_to_kamino_conserves {acc : ExternalAccounts} {p p' : Position}
    (h : deposit_to_kamino acc p = Except.ok p') :
    p'.token_a_vault_balance + p'.token_a_in_lp + p'.token_a_in_lending
      = p.token_a_vault_balance + p.token_a_in_lp + p.token_a_in_lending
    ∧ p'.token_b_vault_balance + p'.token_b_in_lp + p'.token_b_in_lending
      = p.token_b_vault_balance + p.token_b_in_lp + p.token_b_in_lending := by
  unfold deposit_to_kamino at h
  by_cases h0 : p.token_a_vault_balance = 0 ∧ p.token_b_vault_balance = 0
  · simp only [if_pos h0, Except.ok.injEq] at h
    subst h
    exact ⟨rfl, rfl⟩
  · simp only [if_neg h0] at h
    by_cases hacc : acc.kamino_accounts
    · simp only [if_neg (not_not_intro hacc)] at h
      by_cases hobl : p.kamino_obligation.isNone = true
      · simp only [if_pos hobl] at h
        by_cases hva0 : p.token_a_vault_balance > 0
        · simp only [if_pos hva0] at h
          cases hla : checkedAdd p.token_a_in_lending p.token_a_vault_balance with
          | none => simp [hla] at h
          | some la =>
          simp only [hla] at h
          obtain ⟨hlaeq, -⟩ := checkedAdd_eq_some hla
          by_cases hvb0 : p.token_b_vault_balance > 0
          · simp only [if_pos hvb0] at h
            cases hlb : checkedAdd p.token_b_in_lending p.token_b_vault_balance with
            | none => simp [hlb] at h
            | some lb =>
            simp only [hlb, Except.ok.injEq] at h
            obtain ⟨hlbeq, -⟩ := checkedAdd_eq_some hlb
            subst h
            exact ⟨by simp only [] <;> omega, by simp only [] <;> omega⟩
          · simp only [if_neg hvb0, Except.ok.injEq] at h
            subst h
            exact ⟨by simp only [] <;> omega, by simp only [] <;> omega⟩
        · simp only [if_neg hva0] at h
          by_cases hvb0 : p.token_b_vault_balance > 0
          · simp only [if_pos hvb0] at h
            cases hlb : checkedAdd p.token_b_in_lending p.token_b_vault_balance with
            | none => simp [hlb] at h
            | some lb =>
            simp only [hlb, Except.ok.injEq] at h
            obtain ⟨hlbeq, -⟩ := checkedAdd_eq_some hlb
            subst h
            exact ⟨by simp only [] <;> omega, by simp only [] <;> omega⟩
          · exact absurd ⟨by omega, by omega⟩ h0
      · simp only [if_neg hobl] at h
        by_cases hva0 : p.token_a_vault_balance > 0
        · simp only [if_pos hva0] at h
          cases hla : checkedAdd p.token_a_in_lending p.token_a_vault_balance with
          | none => simp [hla] at h
          | some la =>
          simp only [hla] at h
          obtain ⟨hlaeq, -⟩ := checkedAdd_eq_some hla
          by_cases hvb0 : p.token_b_vault_balance > 0
          · simp only [if_pos hvb0] at h
            cases hlb : checkedAdd p.token_b_in_lending p.token_b_vault_balance with
            | none => simp [hlb] at h
            | some lb =>
            simp only [hlb, Except.ok.injEq] at h
            obtain ⟨hlbeq, -⟩ := checkedAdd_eq_some hlb
            subst h
            exact ⟨by simp only [] <;> omega, by simp only [] <;> omega⟩
          · simp only [if_neg hvb0, Except.ok.injEq] at h
            subst h
            exact ⟨by simp only [] <;> omega, by simp only [] <;> omega⟩
        · simp only [if_neg hva0] at h
          by_cases hvb0 : p.token_b_vault_balance > 0
          · simp only [if_pos hvb0] at h
            cases hlb : checkedAdd p.token_b_in_lending p.token_b_vault_balance with
            | none => simp [hlb] at h
            | some lb =>
            simp only [hlb, Except.ok.injEq] at h
            obtain ⟨hlbeq, -⟩ := checkedAdd_eq_some hlb
            subst h
            exact ⟨by simp only [] <;> omega, by simp only [] <;> omega⟩
          · exact absurd ⟨by omega, by omega⟩ h0
    · rw [if_pos hacc] at h
      cases h

theorem close_meteora_cpi_conserves {p p' : Position}
    (h : close_meteora_position_cpi p = Except.ok p') :
    p'.token_a_vault_balance + p'.token_a_in_lp + p'.token_a_in_lending
      = p.token_a_vault_balance + p.token_a_in_lp + p.token_a_in_lending
    ∧ p'.token_b_vault_balance + p'.token_b_in_lp + p'.token_b_in_lending
      = p.token_b_vault_balance + p.token_b_in_lp + p.token_b_in_lending := by
  unfold close_meteora_position_cpi at h
  by_cases h0 : p.token_a_in_lp = 0 ∧ p.token_b_in_lp = 0
  · simp only [if_pos h0, Except.ok.injEq] at h
    subst h
    exact ⟨rfl, rfl⟩
  · simp only [if_neg h0] at h
    cases hva : checkedAdd p.token_a_vault_balance p.token_a_in_lp with
    | none => simp [hva] at h
    | some va =>
    simp only [hva] at h
    obtain ⟨hvaeq, -⟩ := checkedAdd_eq_some hva
    cases hvb : checkedAdd p.token_b_vault_balance p.token_b_in_lp with
    | none => simp [hvb] at h
    | some vb =>
    simp only [hvb, Except.ok.injEq] at h
    obtain ⟨hvbeq, -⟩ := checkedAdd_eq_some hvb
    subst h
    exact ⟨by simp only [] <;> omega, by simp only [] <;> omega⟩

theorem close_meteora_position_conserves {acc : ExternalAccounts} {p p' : Position}
    (h : close_meteora_position acc p = Except.ok p') :
    p'.token_a_vault_balance + p'.token_a_in_lp + p'.token_a_in_lending
      = p.token_a_vault_balance + p.token_a_in_lp + p.token_a_in_lending
    ∧ p'.token_b_vault_balance + p'.token_b_in_lp + p'.token_b_in_lending
      = p.token_b_vault_balance + p.token_b_in_lp + p.token_b_in_lending := by
  unfold close_meteora_position at h
  by_cases h0 : p.token_a_in_lp = 0 ∧ p.token_b_in_lp = 0
  · simp only [if_pos h0, Except.ok.injEq] at h
    subst h
    exact ⟨rfl, rfl⟩
  · simp only [if_neg h0] at h
    by_cases hacc : acc.meteora_accounts
    · simp only [if_neg (not_not_intro hacc)] at h
      exact close_meteora_cpi_conserves h
    · rw [if_pos hacc] at h
      cases h

theorem open_meteora_cpi_conserves {p p' : Position} {ax ay : Nat}
    (h : open_meteora_position_cpi p ax ay = Except.ok p') :
    p'.token_a_vault_balance + p'.token_a_in_lp + p'.token_a_in_lending
      = p.token_a_vault_balance + p.token_a_in_lp + p.token_a_in_lending
    ∧ p'.token_b_vault_balance + p'.token_b_in_lp + p'.token_b_in_lending
      = p.token_b_vault_balance + p.token_b_in_lp + p.token_b_in_lending := by
  unfold open_meteora_position_cpi at h
  cases hva : checkedSub p.token_a_vault_balance ax with
  | none => simp [hva] at h
  | some va =>
  simp only [hva] at h
  obtain ⟨hvaeq, hvale⟩ := checkedSub_eq_some hva
  cases hvb : checkedSub p.token_b_vault_balance ay with
  | none => simp [hvb] at h
  | some vb =>
  simp only [hvb] at h
  obtain ⟨hvbeq, hvble⟩ := checkedSub_eq_some hvb
  cases hla : checkedAdd p.token_a_in_lp ax with
  | none => simp [hla] at h
  | some la =>
  simp only [hla] at h
  obtain ⟨hlaeq, -⟩ := checkedAdd_eq_some hla
  cases hlb : checkedAdd p.token_b_in_lp ay with
  | none => simp [hlb] at h
  | some lb =>
  simp only [hlb, Except.ok.injEq] at h
  obtain ⟨hlbeq, -⟩ := checkedAdd_eq_some hlb
  subst h
  exact ⟨by simp only [] <;> omega, by simp only [] <;> omega⟩

theorem open_meteora_position_conserves {acc : ExternalAccounts} {p p' : Position}
    (h : open_meteora_position acc p = Except.ok p') :
    p'.token_a_vault_balance + p'.token_a_in_lp + p'.token_a_in_lending
      = p.token_a_vault_balance + p.token_a_in_lp + p.token_a_in_lending
    ∧ p'.token_b_vault_balance + p'.token_b_in_lp + p'.token_b_in_lending
      = p.token_b_vault_balance + p.token_b_in_lp + p.token_b_in_lending := by
  unfold open_meteora_position at h
  by_cases h0 : p.token_a_vault_balance = 0 ∧ p.token_b_vault_balance = 0
  · simp only [if_pos h0, Except.ok.injEq] at h
    subst h
    exact ⟨rfl, rfl⟩
  · simp only [if_neg h0] at h
    by_cases hacc : acc.meteora_accounts
    · simp only [if_neg (not_not_intro hacc)] at h
      exact open_meteora_cpi_conserves h
    · rw [if_pos hacc] at h
      cases h

theorem execute_rebalance_conserves {acc : ExternalAccounts} {p p' : Position}
    {in_range : Bool} {cp : Nat} {action : RebalanceAction}
    (h : execute_rebalance acc p in_range cp = Except.ok (p', action)) :
    p'.token_a_vault_balance + p'.token_a_in_lp + p'.token_a_in_lending
      = p.token_a_vault_balance + p.token_a_in_lp + p.token_a_in_lending
    ∧ p'.token_b_vault_balance + p'.token_b_in_lp + p'.token_b_in_lending
      = p.token_b_vault_balance + p.token_b_in_lp + p.token_b_in_lending := by
  unfold execute_rebalance at h
  simp only [] at h
  split at h
  · -- in-range branch
    split at h
    · cases h
    · rename_i p1 heq1
      have hp1 :
          p1.token_a_vault_balance + p1.token_a_in_lp + p1.token_a_in_lending
            = p.token_a_vault_balance + p.token_a_in_lp + p.token_a_in_lending
          ∧ p1.token_b_vault_balance + p1.token_b_in_lp + p1.token_b_in_lending
            = p.token_b_vault_balance + p.token_b_in_lp + p.token_b_in_lending := by
        by_cases hl : has_lending p = true
        · rw [if_pos hl] at heq1
          exact withdraw_from_kamino_conserves heq1
        · rw [if_neg hl] at heq1
          simp only [Except.ok.injEq] at heq1
          subst heq1
          exact ⟨rfl, rfl⟩
      split at h
      · split at h
        · cases h
        · split at h
          · cases h
          · rename_i p2 heq3
            simp only [Except.ok.injEq, Prod.mk.injEq] at h
            obtain ⟨hp2, -⟩ := h
            subst hp2
            obtain ⟨ha1, hb1⟩ := hp1
            obtain ⟨ha2, hb2⟩ := open_meteora_position_conserves heq3
            exact ⟨by omega, by omega⟩
      · simp only [Except.ok.injEq, Prod.mk.injEq] at h
        obtain ⟨hp2, -⟩ := h
        subst hp2
        exact hp1
  · -- out-of-range branch
    split at h
    · cases h
    · rename_i p1 heq1
      have hp1 :
          p1.token_a_vault_balance + p1.token_a_in_lp + p1.token_a_in_lending
            = p.token_a_vault_balance + p.token_a_in_lp + p.token_a_in_lending
          ∧ p1.token_b_vault_balance + p1.token_b_in_lp + p1.token_b_in_lending
            = p.token_b_vault_balance + p.token_b_in_lp + p.token_b_in_lending := by
        by_cases hl : has_lp p = true
        · rw [if_pos hl] at heq1
          exact close_meteora_position_conserves heq1
        · rw [if_neg hl] at heq1
          simp only [Except.ok.injEq] at heq1
          subst heq1
          exact ⟨rfl, rfl⟩
      split at h
      · split at h
        · cases h
        · rename_i p2 heq3
          simp only [Except.ok.injEq, Prod.mk.injEq] at h
          obtain ⟨hp2, -⟩ := h
          subst hp2
          obtain ⟨ha1, hb1⟩ := hp1
          obtain ⟨ha2, hb2⟩ := deposit_to_kamino_conserves heq3
          exact ⟨by omega, by omega⟩
      · simp only [Except.ok.injEq, Prod.mk.injEq] at h
        obtain ⟨hp2, -⟩ := h
        subst hp2
        exact hp1

/-- Every successful `rebalance` either returns `NoAction` with the
position untouched, or went through `execute_rebalance` and stamped
`last_rebalance_slot` with the current slot, leaving the six balances
exactly those produced by the executor. -/
theorem rebalance_ok_destruct {acc : ExternalAccounts} {p : Position}
    {o : OracleObservation} {slot : Nat} {p' : Position} {ev : RebalanceEvent}
    (h : rebalance acc p o slot = Except.ok (p', ev)) :
    (ev.action = RebalanceAction.NoAction ∧ p' = p)
    ∨ (p'.last_rebalance_slot = slot
       ∧ ∃ in_range cp p1 action,
           execute_rebalance acc p in_range cp = Except.ok (p1, action)
           ∧ p'.token_a_vault_balance = p1.token_a_vault_balance
           ∧ p'.token_b_vault_balance = p1.token_b_vault_balance
           ∧ p'.token_a_in_lp = p1.token_a_in_lp
           ∧ p'.token_b_in_lp = p1.token_b_in_lp
           ∧ p'.token_a_in_lending = p1.token_a_in_lending
           ∧ p'.token_b_in_lending = p1.token_b_in_lending) := by
  unfold rebalance at h
  split at h
  · cases h
  split at h
  · cases h
  split at h
  · cases h
  rename_i cp hcp
  split at h
  · cases h
  rename_i cf hcf
  simp only [] at h
  split at h
  · simp only [Except.ok.injEq, Prod.mk.injEq] at h
    obtain ⟨hp, hev⟩ := h
    subst hp
    subst hev
    exact Or.inl ⟨rfl, rfl⟩
  · split at h
    · cases h
    rename_i go hgo
    split at h
    · simp only [Except.ok.injEq, Prod.mk.injEq] at h
      obtain ⟨hp, hev⟩ := h
      subst hp
      subst hev
      exact Or.inl ⟨rfl, rfl⟩
    · split at h
      · cases h
      rename_i p1 action hexec
      simp only [Except.ok.injEq, Prod.mk.injEq] at h
      obtain ⟨hp, hev⟩ := h
      subst hp
      subst hev
      exact Or.inr ⟨rfl,
        definitely_in_range cp cf p.lp_range_min p.lp_range_max, cp, p1, action,
        hexec, rfl, rfl, rfl, rfl, rfl, rfl⟩

/-- C1: any successful `rebalance_position` call conserves, per token,
the sum of the three fund buckets (idle vault + LP + lending): the
executor's moves shuffle funds between buckets but never create or
destroy them. -/
theorem C1_rebalance_conserves_sums (acc : ExternalAccounts) (p : Position)
    (o : OracleObservation) (slot : Nat) (p' : Position) (ev : RebalanceEvent)
    (h : rebalance acc p o slot = Except.ok (p', ev)) :
    p'.token_a_vault_balance + p'.token_a_in_lp + p'.token_a_in_lending
      = p.token_a_vault_balance + p.token_a_in_lp + p.token_a_in_lending
    ∧ p'.token_b_vault_balance + p'.token_b_in_lp + p'.token_b_in_lending
      = p.token_b_vault_balance + p.token_b_in_lp + p.token_b_in_lending := by
  rcases rebalance_ok_destruct h with ⟨-, hp⟩ | ⟨-, ir, cp, p1, action, hexec, h6⟩
  · subst hp
    exact ⟨rfl, rfl⟩
  · obtain ⟨e1, e2, e3, e4, e5, e6⟩ := h6
    obtain ⟨ha, hb⟩ := execute_rebalance_conserves hexec
    exact ⟨by omega, by omega⟩

/-- The in-range first-deployment witness position: 1000 idle token-A
units, nothing deployed. -/
def wPosC1 : Position :=
  { wPosC5 with token_a_vault_balance := 1000, token_a_in_lp := 0,
                token_a_in_lending := 0 }

/-- `wPosC1` after the witness rebalance: all 1000 units moved to LP and
the rebalance tracking fields stamped. -/
def wPosC1After : Position :=
  { wPosC5 with token_a_vault_balance := 0, token_a_in_lp := 1000,
                token_a_in_lending := 0, last_rebalance_price := 150000000,
                last_rebalance_slot := 100, total_rebalances := 1 }

/-- The oracle observation used by the concrete rebalance witnesses:
fresh, price 150000000 at exponent −6, confidence 10. -/
def wOracle : OracleObservation := ⟨true, 150000000, 10, -6⟩

/-- The event emitted by the witness rebalance of `wPosC1`. -/
def wEvC1 : RebalanceEvent :=
  { position_id := 1, owner := 2, current_price := 150000000,
    in_range := true, action := RebalanceAction.MoveToLP }

/-- Witness for C1: the concrete in-range first deployment moving 1000
idle token-A units into the LP bucket conserves both per-token sums. -/
theorem C1_rebalance_conserves_sums_witness :
    ∃ pr : Position × RebalanceEvent,
      rebalance ⟨true, true⟩ wPosC1 wOracle 100 = Except.ok pr
      ∧ pr.1.token_a_vault_balance + pr.1.token_a_in_lp + pr.1.token_a_in_lending = 1000
      ∧ pr.1.token_b_vault_balance + pr.1.token_b_in_lp + pr.1.token_b_in_lending = 0 := by
  have hre : rebalance ⟨true, true⟩ wPosC1 wOracle 100
      = Except.ok (wPosC1After, wEvC1) := by rfl
  have hsum := C1_rebalance_conserves_sums ⟨true, true⟩ wPosC1 wOracle 100
    wPosC1After wEvC1 hre
  exact ⟨(wPosC1After, wEvC1), hre, hsum.1.trans (by decide), hsum.2.trans (by decide)⟩

/-- The cooldown gate: within 25 slots of `last_rebalance_slot`,
`should_rebalance` returns `false`. -/
theorem should_rebalance_cooldown (p : Position) (cp : Nat) (ir : Bool) (s : Nat)
    (h : saturatingSub s p.last_rebalance_slot < MIN_SLOTS_BETWEEN_REBALANCES) :
    should_rebalance p cp ir s = Except.ok false := by
  unfold should_rebalance
  rw [if_pos h]

/-- A successful `rebalance` within the cooldown window emits `NoAction`
and returns the position unchanged. -/
theorem rebalance_cooldown_noaction {acc : ExternalAccounts} {p : Position}
    {o : OracleObservation} {slot : Nat} {p' : Position} {ev : RebalanceEvent}
    (hcool : saturatingSub slot p.last_rebalance_slot < MIN_SLOTS_BETWEEN_REBALANCES)
    (h : rebalance acc p o slot = Except.ok (p', ev)) :
    ev.action = RebalanceAction.NoAction ∧ p' = p := by
  unfold rebalance at h
  split at h
  · cases h
  split at h
  · cases h
  split at h
  · cases h
  rename_i cp hcp
  split at h
  · cases h
  rename_i cf hcf
  simp only [] at h
  split at h
  · simp only [Except.ok.injEq, Prod.mk.injEq] at h
    obtain ⟨hp, hev⟩ := h
    subst hp
    subst hev
    exact ⟨rfl, rfl⟩
  · rw [should_rebalance_cooldown p cp _ slot hcool] at h
    simp only [eq_self_iff_true, if_true, Except.ok.injEq, Prod.mk.injEq] at h
    obtain ⟨hp, hev⟩ := h
    subst hp
    subst hev
    exact ⟨rfl, rfl⟩

/-- Every successful `rebalance` whose action is not `NoAction` stamps
`last_rebalance_slot` with the call's slot. -/
theorem rebalance_action_slot {acc : ExternalAccounts} {p : Position}
    {o : OracleObservation} {slot : Nat} {p' : Position} {ev : RebalanceEvent}
    (h : rebalance acc p o slot = Except.ok (p', ev))
    (hact : ev.action ≠ RebalanceAction.NoAction) :
    p'.last_rebalance_slot = slot := by
  rcases rebalance_ok_destruct h with ⟨hna, -⟩ | ⟨hslot, -⟩
  · exact absurd hna hact
  · exact hslot

/-- C9: if a `rebalance_position` call completes a transition (emitting
an action other than `NoAction`, hence stamping `last_rebalance_slot`
with its slot), then a second successful call on the resulting position
fewer than 25 slots later emits `NoAction` and leaves the position — in
particular every fund-location balance — unchanged. -/
theorem C9_cooldown_idempotence (acc1 acc2 : ExternalAccounts)
    (p p1 p2 : Position) (o1 o2 : OracleObservation) (s1 s2 : Nat)
    (ev1 ev2 : RebalanceEvent)
    (h1 : rebalance acc1 p o1 s1 = Except.ok (p1, ev1))
    (hact : ev1.action ≠ RebalanceAction.NoAction)
    (h2 : rebalance acc2 p1 o2 s2 = Except.ok (p2, ev2))
    (hcool : saturatingSub s2 s1 < MIN_SLOTS_BETWEEN_REBALANCES) :
    ev2.action = RebalanceAction.NoAction ∧ p2 = p1 := by
  have hslot := rebalance_action_slot h1 hact
  exact rebalance_cooldown_noaction (by rw [hslot]; exact hcool) h2

/-- The `NoAction` event emitted by the second, cooldown-gated witness
rebalance. -/
def wEvC9 : RebalanceEvent :=
  { position_id := 1, owner := 2, current_price := 150000000,
    in_range := true, action := RebalanceAction.NoAction }

/-- Witness for C9: after the `wPosC1` deployment at slot 100, a second
call at slot 110 (only 10 slots later, below the 25-slot cooldown)
yields `NoAction` and leaves the position unchanged. -/
theorem C9_cooldown_idempotence_witness :
    wEvC9.action = RebalanceAction.NoAction ∧ wPosC1After = wPosC1After :=
  C9_cooldown_idempotence ⟨true, true⟩ ⟨true, true⟩ wPosC1 wPosC1After wPosC1After
    wOracle wOracle 100 110 wEvC1 wEvC9 (by rfl) (by decide) (by rfl) (by decide)

end CapitalReallocator
